import Mathlib

/-!
# Conversational memory subsystem and chat client: a verification development

This file embeds the conversational memory subsystem of the urban-planning
assistant repository and the session/chat logic of its React frontend
(`src/frontend/src/App.tsx`), and proves the behavioural properties the
specification states about them.

The backend memory engine (`postgres_memory_manager.py`) is not part of the
source tree; its operations (`write`, `query_similar`, `list_sessions`,
`get_session_history`) are modelled from the specification. The frontend
session state machine, history parser, and request guard are translated
directly from `App.tsx`.

Conventions of the embedding:
* embeddings are lists of rationals; per the specification's algorithmic note
  ("dot product over L2-normalized vectors"), stored vectors are kept
  L2-normalized, so the cosine-similarity score is the dot product;
* timestamps are naturals; strings are Lean `String`s;
* fallible operations return `Except MemError`.
-/

/-- Error taxonomy of the memory subsystem (spec sections 4.1 and 7). -/
inductive MemError where
  | InvalidArgument
  | StorageError
deriving DecidableEq

/-- A single stored query/response exchange (spec section 3, and the
`conversation_memory` table of the repository's README). -/
structure ConversationRecord where
  user_id : String
  session_id : String
  user_query : String
  assistant_response : String
  embedding : List ℚ
  timestamp : Nat
deriving DecidableEq

/-- The memory store: a fixed embedding dimensionality chosen at
configuration time and an append-only list of records (spec section 3). -/
structure MemoryStore where
  dim : Nat
  records : List ConversationRecord
deriving DecidableEq

/-- Modelled from the spec: cosine similarity, realized as the dot product
because the store keeps embeddings L2-normalized (spec section 4.1,
algorithmic note: "dot product over L2-normalized vectors"). -/
def cosineSim (a b : List ℚ) : ℚ :=
  (List.zipWith (fun x y => x * y) a b).sum

/-- The retrieval ranking order for `query_similar`: `a` ranks no lower than
`b` when `a` has strictly higher similarity to the query, or equal similarity
and a timestamp at least as recent (spec section 4.1: "ranked descending by
cosine similarity ... ties broken by most-recent timestamp first"). -/
def RankGE (q : List ℚ) (a b : ConversationRecord) : Prop :=
  cosineSim q b.embedding < cosineSim q a.embedding ∨
    (cosineSim q a.embedding = cosineSim q b.embedding ∧ b.timestamp ≤ a.timestamp)

instance (q : List ℚ) : DecidableRel (RankGE q) := fun a b => by
  unfold RankGE; infer_instance

instance (q : List ℚ) : IsTotal ConversationRecord (RankGE q) := by
  constructor
  intro a b
  rcases lt_trichotomy (cosineSim q a.embedding) (cosineSim q b.embedding) with h | h | h
  · exact Or.inr (Or.inl h)
  · rcases Nat.le_total a.timestamp b.timestamp with ht | ht
    · exact Or.inr (Or.inr ⟨h.symm, ht⟩)
    · exact Or.inl (Or.inr ⟨h, ht⟩)
  · exact Or.inl (Or.inl h)

instance (q : List ℚ) : IsTrans ConversationRecord (RankGE q) := by
  constructor
  intro a b c hab hbc
  rcases hab with h1 | ⟨h1, ht1⟩ <;> rcases hbc with h2 | ⟨h2, ht2⟩
  · exact Or.inl (h2.trans h1)
  · exact Or.inl (h2 ▸ h1)
  · exact Or.inl (h1.symm ▸ h2)
  · exact Or.inr ⟨h1.trans h2, ht2.trans ht1⟩

/-- The records belonging to one user (the user-scoping filter every store
operation applies before doing anything else; spec section 3: "A user's
records are never visible to another user's queries"). -/
def userRecords (st : MemoryStore) (u : String) : List ConversationRecord :=
  st.records.filter (fun r => r.user_id == u)

/-- Modelled from the spec: `query_similar(user_id, query_embedding, k)`
(spec section 4.1). `k` must be a positive integer, otherwise the call fails
with `InvalidArgument`; otherwise the user's records are ranked by the
brute-force cosine-similarity scan and the top `k` are returned, each paired
with its similarity score. -/
def query_similar (st : MemoryStore) (u : String) (q : List ℚ) (k : Int) :
    Except MemError (List (ConversationRecord × ℚ)) :=
  if k ≤ 0 then .error .InvalidArgument
  else
    .ok (((List.insertionSort (RankGE q) (userRecords st u)).take k.toNat).map
      (fun r => (r, cosineSim q r.embedding)))

/-- Modelled from the spec: `write(user_id, session_id, query, response,
embedding, timestamp)` (spec section 4.1). Fails with `StorageError` when the
embedding dimensionality mismatches the store's fixed dimensionality or when
a required field is empty; otherwise appends one immutable record.
(Record-id generation is elided; records are identified positionally.) -/
def write (st : MemoryStore) (u s q r : String) (e : List ℚ) (t : Nat) :
    Except MemError MemoryStore :=
  if e.length ≠ st.dim ∨ u = "" ∨ s = "" ∨ q = "" ∨ r = "" then
    .error .StorageError
  else
    .ok { st with records := st.records ++ [⟨u, s, q, r, e, t⟩] }

/-- The store a caller is left with after attempting a `write`: the updated
store on success, the untouched original on failure. -/
def writeOrKeep (st : MemoryStore) (u s q r : String) (e : List ℚ) (t : Nat) :
    MemoryStore :=
  match write st u s q r e t with
  | .ok st1 => st1
  | .error _ => st

/-- Chronological ordering on records, by timestamp ascending. -/
def tsLE (a b : ConversationRecord) : Prop := a.timestamp ≤ b.timestamp

instance : DecidableRel tsLE := fun a b => Nat.decLe a.timestamp b.timestamp

instance : IsTotal ConversationRecord tsLE :=
  ⟨fun a b => Nat.le_total a.timestamp b.timestamp⟩

instance : IsTrans ConversationRecord tsLE :=
  ⟨fun _ _ _ h1 h2 => Nat.le_trans h1 h2⟩

/-- The records of one `(user, session)` pair. -/
def sessionRecords (st : MemoryStore) (u sid : String) : List ConversationRecord :=
  st.records.filter (fun r => r.user_id == u && r.session_id == sid)

/-- Modelled from the spec: `get_session_history(user_id, session_id)`
(spec section 4.1): all records for that pair ordered by timestamp
ascending; the empty sequence (not an error) when the pair has none. -/
def get_session_history (st : MemoryStore) (u sid : String) :
    List ConversationRecord :=
  List.insertionSort tsLE (sessionRecords st u sid)

/-- Modelled from the spec: one record rendered as its two labeled lines in
the `[USER]`/`[ASSISTANT]` prefixed line format (spec section 6). -/
def renderRecord (r : ConversationRecord) : String :=
  "[USER] " ++ r.user_query ++ "\n[ASSISTANT] " ++ r.assistant_response

/-- Modelled from the spec: the textual session-history rendering handed to
callers that want plain-text replay (spec section 6): the records' labeled
lines joined by newlines. -/
def renderHistory : List ConversationRecord → String
  | [] => ""
  | [r] => renderRecord r
  | r :: r2 :: rest => renderRecord r ++ "\n" ++ renderHistory (r2 :: rest)

/-- The derived per-session aggregate (spec section 3 and the frontend's
`SessionInfo` interface, App.tsx lines 12-19). -/
structure SessionSummary where
  session_id : String
  message_count : Nat
  first_message : String
  last_message : String
  first_timestamp : Nat
  last_timestamp : Nat
deriving DecidableEq

/-- The earliest record by timestamp among `r0 :: rs` (first one on ties). -/
def minTsRecord (r0 : ConversationRecord) (rs : List ConversationRecord) :
    ConversationRecord :=
  rs.foldl (fun acc r => if r.timestamp < acc.timestamp then r else acc) r0

/-- The latest record by timestamp among `r0 :: rs` (first one on ties). -/
def maxTsRecord (r0 : ConversationRecord) (rs : List ConversationRecord) :
    ConversationRecord :=
  rs.foldl (fun acc r => if acc.timestamp < r.timestamp then r else acc) r0

/-- Modelled from the spec: the `SessionSummary` aggregates of one session's
records (spec section 3: message_count, first/last message text and
timestamps, derived from the earliest/latest record by timestamp). -/
def summarize (sid : String) : List ConversationRecord → SessionSummary
  | [] => ⟨sid, 0, "", "", 0, 0⟩
  | r0 :: rest =>
    ⟨sid, (r0 :: rest).length,
      (minTsRecord r0 rest).user_query, (maxTsRecord r0 rest).user_query,
      (minTsRecord r0 rest).timestamp, (maxTsRecord r0 rest).timestamp⟩

/-- Ordering of session summaries: most recent conversation first
(spec section 4.1: "orders sessions by last_timestamp descending"). -/
def ltsGE (s1 s2 : SessionSummary) : Prop :=
  s2.last_timestamp ≤ s1.last_timestamp

instance : DecidableRel ltsGE := fun s1 s2 =>
  Nat.decLe s2.last_timestamp s1.last_timestamp

instance : IsTotal SessionSummary ltsGE :=
  ⟨fun a b => Nat.le_total b.last_timestamp a.last_timestamp⟩

instance : IsTrans SessionSummary ltsGE :=
  ⟨fun _ _ _ h1 h2 => Nat.le_trans h2 h1⟩

/-- Modelled from the spec: `list_sessions(user_id)` (spec section 4.1):
group the user's records by session_id, compute the aggregates, and order
the summaries by last_timestamp descending. -/
def list_sessions (st : MemoryStore) (u : String) : List SessionSummary :=
  List.insertionSort ltsGE
    ((((userRecords st u).map (fun r => r.session_id)).dedup).map
      (fun sid => summarize sid
        ((userRecords st u).filter (fun r => r.session_id == sid))))

/-- Message sender, as in the frontend's `Message` interface
(App.tsx lines 7-10). -/
inductive Sender where
  | user
  | assistant
deriving DecidableEq

/-- A chat message, as in the frontend's `Message` interface
(App.tsx lines 7-10). -/
structure Message where
  text : String
  sender : Sender
deriving DecidableEq

/-- JavaScript `String.prototype.trim` on a character list: whitespace is
removed from both ends. -/
def charTrim (l : List Char) : List Char :=
  (((l.dropWhile Char.isWhitespace).reverse).dropWhile Char.isWhitespace).reverse

/-- JavaScript `String.prototype.trim`, as used by the frontend. -/
def jsTrim (s : String) : String := String.mk (charTrim s.data)

/-- JavaScript `String.prototype.split` with separator a single newline, on a
character list: the empty string splits to one empty line, and a trailing
newline yields a trailing empty line. -/
def splitLines : List Char → List (List Char)
  | [] => [[]]
  | c :: rest =>
    if c = '\n' then [] :: splitLines rest
    else
      match splitLines rest with
      | l :: ls => (c :: l) :: ls
      | [] => [[c]]

/-- JavaScript `String.prototype.replace` with a string pattern and empty
replacement, on character lists: the first occurrence of `pat` is removed;
a string without an occurrence is returned unchanged. -/
def replaceFirst (pat : List Char) : List Char → List Char
  | [] => []
  | c :: rest =>
    if pat.isPrefixOf (c :: rest) then (c :: rest).drop pat.length
    else c :: replaceFirst pat rest

/-- The user-turn label the frontend parser looks for (App.tsx line 136). -/
def labelUser : List Char := "[USER]".data

/-- The assistant-turn label the frontend parser looks for
(App.tsx line 141). -/
def labelAssistant : List Char := "[ASSISTANT]".data

/-- The session-history replay parser of `loadSessionHistory`
(App.tsx lines 131-147): each line that starts with `[USER]` becomes a user
message and each line that starts with `[ASSISTANT]` an assistant message,
with the first occurrence of the label removed and the rest trimmed; every
other line is skipped. -/
def parseLines : List (List Char) → List Message
  | [] => []
  | line :: rest =>
    if labelUser.isPrefixOf line then
      ⟨String.mk (charTrim (replaceFirst labelUser line)), .user⟩ :: parseLines rest
    else if labelAssistant.isPrefixOf line then
      ⟨String.mk (charTrim (replaceFirst labelAssistant line)), .assistant⟩ :: parseLines rest
    else parseLines rest

/-- The full history-to-messages conversion of `loadSessionHistory`
(App.tsx lines 131-147): split the fetched history on newlines and parse
each line. -/
def parseHistory (h : String) : List Message :=
  parseLines (splitLines h.data)

/-- The slice of the frontend component state that the session state machine
and the chat-request logic read and write (App.tsx lines 34-48). -/
structure ClientState where
  messages : List Message
  input : String
  isLoading : Bool
  currentSessionId : Option String
deriving DecidableEq

/-- The initial component state (App.tsx lines 34-48): no messages, empty
input, not loading, no current session. -/
def initialClientState : ClientState :=
  { messages := [], input := "", isLoading := false, currentSessionId := none }

/-- The welcome message `startNewChat` shows (App.tsx lines 98-101). -/
def welcomeText : String :=
  "Welcome to Urban Planning Studio. I\x27m here to help you explore urban development strategies, sustainable city design, and community planning solutions. How can I assist you with your urban planning project today?"

/-- `startNewChat` (App.tsx lines 97-104): reset the messages to the welcome
message and clear the current session id. -/
def startNewChat (st : ClientState) : ClientState :=
  { st with messages := [⟨welcomeText, .assistant⟩], currentSessionId := none }

/-- `loadSessionHistory` on a successful fetch (App.tsx lines 126-156):
replace the messages with the parsed history and make `sessionId` the
current session for follow-up questions. -/
def loadSessionHistory (st : ClientState) (sessionId history : String) :
    ClientState :=
  { st with messages := parseHistory history, currentSessionId := some sessionId }

/-- The body of a `/chat` request (App.tsx lines 167-179): the typed query
and, when a conversation is being continued, the current session id. -/
structure ChatRequest where
  query : String
  session_id : Option String
deriving DecidableEq

/-- The guarded start of `handleSendMessage` (App.tsx lines 158-185): nothing
happens when the trimmed input is empty or a request is already in flight;
otherwise the user message is appended, the input cleared, loading starts,
and the `/chat` request is issued with the current session id if any. -/
def beginSend (st : ClientState) : ClientState × Option ChatRequest :=
  if jsTrim st.input = "" ∨ st.isLoading = true then (st, none)
  else
    ({ st with
        messages := st.messages ++ [⟨st.input, .user⟩],
        input := "",
        isLoading := true },
      some ⟨st.input, st.currentSessionId⟩)

/-- Modelled from the spec: the session id the backend uses for a turn
(spec section 6: the submit operation "returns the session_id used (newly
minted or continued)"): the request's session id when present, otherwise a
freshly minted token `mint`. -/
def serverSid (req : ChatRequest) (mint : String) : String :=
  req.session_id.getD mint

/-- The `response.ok` branch of `handleSendMessage` (App.tsx lines 187-207
and the `finally` at 215-217): append the assistant response, adopt the
returned session id when none was set and it is non-empty, and stop
loading. -/
def completeOk (st : ClientState) (data_sid resp : String) : ClientState :=
  { st with
      messages := st.messages ++ [⟨resp, .assistant⟩],
      isLoading := false,
      currentSessionId :=
        if data_sid ≠ "" ∧ st.currentSessionId = none then some data_sid
        else st.currentSessionId }

/-- The error branches of `handleSendMessage` (App.tsx lines 201-217):
append an error message and stop loading; the session id is untouched. -/
def completeFail (st : ClientState) (errText : String) : ClientState :=
  { st with
      messages := st.messages ++ [⟨errText, .assistant⟩],
      isLoading := false }

/-- One complete successful chat turn: `handleSendMessage` runs its guard,
issues the request, and receives the backend's reply carrying the session id
used. Returns the new state and, when a request was actually issued, the
session id the turn was written under. -/
def sendTurn (st : ClientState) (mint resp : String) :
    ClientState × Option String :=
  match beginSend st with
  | (st1, none) => (st1, none)
  | (st1, some req) =>
    let sid := serverSid req mint
    (completeOk st1 sid resp, some sid)

/-- A sequence of chat turns: for each triple `(input, mint, resp)` the user
types `input` and submits, the backend minting `mint` when no session is
carried and answering `resp`. Returns the final state and the session ids
the turns were written under. -/
def runTurns (st : ClientState) :
    List (String × String × String) → ClientState × List String
  | [] => (st, [])
  | (inp, mint, resp) :: rest =>
    ((runTurns (sendTurn { st with input := inp } mint resp).1 rest).1,
      (sendTurn { st with input := inp } mint resp).2.toList ++
        (runTurns (sendTurn { st with input := inp } mint resp).1 rest).2)

/-- The UI events that touch the chat-request logic: typing into the input
(App.tsx line 559), submitting (Enter at line 560 or the send button at
lines 564-568, both running `handleSendMessage`), and the in-flight fetch
resolving successfully or not (the branches ending in the `finally` of
App.tsx lines 215-217). -/
inductive NetEvent where
  | type (s : String)
  | send (mint resp : String)
  | complete (data_sid resp : String)
  | fail (errText : String)

/-- One event step of the chat client. A `send` only emits a request when the
`handleSendMessage` guard passes (App.tsx line 159); `complete`/`fail` model
the fetch resolving. The emitted request, if any, is returned. -/
def stepClient (st : ClientState) : NetEvent → ClientState × Option ChatRequest
  | .type s => ({ st with input := s }, none)
  | .send _ _ => beginSend st
  | .complete data_sid resp => (completeOk st data_sid resp, none)
  | .fail errText => (completeFail st errText, none)

/-- In-flight request accounting for one event: issuing a request increments
the count, a fetch resolution decrements it. -/
def flStep (fl : Nat) (e : NetEvent) (req : Option ChatRequest) : Nat :=
  match e with
  | .type _ => fl
  | .send _ _ => if req.isSome then fl + 1 else fl
  | .complete _ _ => fl - 1
  | .fail _ => fl - 1

/-- Run a list of UI events, tracking the number of requests in flight.
Returns the final state, the in-flight count, and every request emitted. -/
def runClient (st : ClientState) (fl : Nat) :
    List NetEvent → ClientState × Nat × List ChatRequest
  | [] => (st, fl, [])
  | e :: es =>
    ((runClient (stepClient st e).1 (flStep fl e (stepClient st e).2) es).1,
      (runClient (stepClient st e).1 (flStep fl e (stepClient st e).2) es).2.1,
      (stepClient st e).2.toList ++
        (runClient (stepClient st e).1 (flStep fl e (stepClient st e).2) es).2.2)

lemma map_fst_pairing (q : List ℚ) (l : List ConversationRecord) :
    (l.map (fun r => (r, cosineSim q r.embedding))).map Prod.fst = l := by
  induction l with
  | nil => rfl
  | cons r rs ih => simpa using ih

/-- Equality on `Except` results is decidable. -/
instance {ε α : Type} [DecidableEq ε] [DecidableEq α] : DecidableEq (Except ε α) :=
  fun a b =>
    match a, b with
    | .ok x, .ok y =>
      if h : x = y then .isTrue (by rw [h]) else .isFalse (by simp [h])
    | .error x, .error y =>
      if h : x = y then .isTrue (by rw [h]) else .isFalse (by simp [h])
    | .ok _, .error _ => .isFalse (by simp)
    | .error _, .ok _ => .isFalse (by simp)

/-- C1: for every user `u`, query embedding `q`, and positive integer `k`,
`query_similar u q k` succeeds and returns exactly the `min(k, number of u's
records)` records with the highest cosine similarity to `q` among `u`'s
records — the result splits the user's records into the returned part and a
remainder every element of which ranks no higher — ordered by descending
similarity with ties broken by most-recent timestamp first, each paired with
its similarity score; for `k` not a positive integer the call fails with
`InvalidArgument`. -/
theorem c1_query_similar_topk (st : MemoryStore) (u : String) (q : List ℚ)
    (k : Int) :
    (k ≤ 0 → query_similar st u q k = .error .InvalidArgument) ∧
    (0 < k → ∃ res rest,
      query_similar st u q k = .ok res ∧
      res.length = min k.toNat (userRecords st u).length ∧
      (res.map Prod.fst ++ rest).Perm (userRecords st u) ∧
      List.Pairwise (RankGE q) (res.map Prod.fst) ∧
      (∀ a ∈ res.map Prod.fst, ∀ b ∈ rest, RankGE q a b) ∧
      (∀ p ∈ res, p.2 = cosineSim q p.1.embedding)) := by
  constructor
  · intro hk
    simp [query_similar, hk]
  · intro hk
    have hk' : ¬ k ≤ 0 := not_le.mpr hk
    have hs : List.Pairwise (RankGE q)
        (List.insertionSort (RankGE q) (userRecords st u)) :=
      List.sorted_insertionSort (RankGE q) (userRecords st u)
    have hsplit := List.pairwise_append.mp
      (by rw [List.take_append_drop k.toNat
        (List.insertionSort (RankGE q) (userRecords st u))]; exact hs)
    refine ⟨((List.insertionSort (RankGE q) (userRecords st u)).take k.toNat).map
        (fun r => (r, cosineSim q r.embedding)),
      (List.insertionSort (RankGE q) (userRecords st u)).drop k.toNat,
      ?_, ?_, ?_, ?_, ?_, ?_⟩
    · simp [query_similar, hk']
    · simp [List.length_take, List.length_insertionSort]
    · rw [map_fst_pairing, List.take_append_drop]
      exact List.perm_insertionSort _ _
    · rw [map_fst_pairing]
      exact hsplit.1
    · rw [map_fst_pairing]
      exact hsplit.2.2
    · intro p hp
      obtain ⟨r, _, rfl⟩ := List.mem_map.mp hp
      rfl

/-- Witness for C1 on a concrete store: `k = 0` is rejected with
`InvalidArgument` and `k = 2` returns the top-2 contract. -/
theorem c1_query_similar_topk_witness :
    query_similar ⟨2, [⟨"alice", "s1", "hello", "hi there", [1, 0], 1⟩]⟩
      "alice" [1, 0] 0 = .error .InvalidArgument ∧
    (∃ res rest,
      query_similar ⟨2, [⟨"alice", "s1", "hello", "hi there", [1, 0], 1⟩]⟩
        "alice" [1, 0] 2 = .ok res ∧
      res.length = min (Int.toNat 2)
        (userRecords ⟨2, [⟨"alice", "s1", "hello", "hi there", [1, 0], 1⟩]⟩
          "alice").length ∧
      (res.map Prod.fst ++ rest).Perm
        (userRecords ⟨2, [⟨"alice", "s1", "hello", "hi there", [1, 0], 1⟩]⟩
          "alice") ∧
      List.Pairwise (RankGE [1, 0]) (res.map Prod.fst) ∧
      (∀ a ∈ res.map Prod.fst, ∀ b ∈ rest, RankGE [1, 0] a b) ∧
      (∀ p ∈ res, p.2 = cosineSim [1, 0] p.1.embedding)) :=
  ⟨(c1_query_similar_topk _ "alice" [1, 0] 0).1 (by decide),
   (c1_query_similar_topk _ "alice" [1, 0] 2).2 (by decide)⟩

/-- C2: a successful `query_similar(A, q, k)` only ever returns records whose
`user_id` is `A` — records written under any other user `B` are never
visible — and because the scan filters by user before ranking, the result
length is `min(k, number of A's records)` whatever records other users have,
so a user's query never under-returns because of other users' records. -/
theorem c2_user_isolation (st : MemoryStore) (u : String) (q : List ℚ)
    (k : Int) (hk : 0 < k) :
    ∃ res, query_similar st u q k = .ok res ∧
      (∀ p ∈ res, p.1.user_id = u) ∧
      res.length = min k.toNat (userRecords st u).length := by
  have hk' : ¬ k ≤ 0 := not_le.mpr hk
  refine ⟨((List.insertionSort (RankGE q) (userRecords st u)).take k.toNat).map
      (fun r => (r, cosineSim q r.embedding)), ?_, ?_, ?_⟩
  · simp [query_similar, hk']
  · intro p hp
    obtain ⟨r, hr, rfl⟩ := List.mem_map.mp hp
    have hr1 : r ∈ List.insertionSort (RankGE q) (userRecords st u) :=
      List.take_subset k.toNat _ hr
    have hr2 : r ∈ userRecords st u :=
      (List.perm_insertionSort (RankGE q) (userRecords st u)).mem_iff.mp hr1
    have := List.of_mem_filter hr2
    simpa using this
  · simp [List.length_take, List.length_insertionSort]

/-- Witness for C2: a store holding records of both `alice` and `bob`;
`alice`'s query returns only `alice`'s records and exactly
`min(k, number of alice's records)` of them. -/
theorem c2_user_isolation_witness :
    ∃ res, query_similar
        ⟨2, [⟨"alice", "s1", "hello", "hi there", [1, 0], 1⟩,
             ⟨"bob", "s9", "secret", "resp", [1, 0], 3⟩]⟩
        "alice" [1, 0] 5 = .ok res ∧
      (∀ p ∈ res, p.1.user_id = "alice") ∧
      res.length = min (Int.toNat 5)
        (userRecords
          ⟨2, [⟨"alice", "s1", "hello", "hi there", [1, 0], 1⟩,
               ⟨"bob", "s9", "secret", "resp", [1, 0], 3⟩]⟩
          "alice").length :=
  c2_user_isolation _ "alice" [1, 0] 5 (by decide)

/-- C7: `write` fails with `StorageError` when the embedding length differs
from the store's fixed dimensionality or any of user_id, session_id, query,
response is empty, and on such a failure the caller's store is unchanged: any
subsequent `list_sessions` observes exactly what it observed before. -/
theorem c7_write_validation (st : MemoryStore) (u s q r : String)
    (e : List ℚ) (t : Nat)
    (h : e.length ≠ st.dim ∨ u = "" ∨ s = "" ∨ q = "" ∨ r = "") :
    write st u s q r e t = .error .StorageError ∧
    ∀ u2, list_sessions (writeOrKeep st u s q r e t) u2 = list_sessions st u2 := by
  have hw : write st u s q r e t = .error .StorageError := by
    unfold write
    rw [if_pos h]
  refine ⟨hw, fun u2 => ?_⟩
  unfold writeOrKeep
  rw [hw]

/-- Witness for C7: a 1-dimensional vector written to a store configured for
dimensionality 2 is rejected and a later `list_sessions` is unchanged. -/
theorem c7_write_validation_witness :
    write ⟨2, [⟨"alice", "s1", "hello", "hi there", [1, 0], 1⟩]⟩
        "alice" "s1" "q" "r" [1] 7 = .error .StorageError ∧
    ∀ u2, list_sessions
        (writeOrKeep ⟨2, [⟨"alice", "s1", "hello", "hi there", [1, 0], 1⟩]⟩
          "alice" "s1" "q" "r" [1] 7) u2 =
      list_sessions ⟨2, [⟨"alice", "s1", "hello", "hi there", [1, 0], 1⟩]⟩ u2 :=
  c7_write_validation _ "alice" "s1" "q" "r" [1] 7 (by decide)

/-- C8: absence of history is success, never an error: a user with no
records gets `.ok []` from `query_similar` (for any positive `k`) and `[]`
from `list_sessions`, and `get_session_history` of a `(user, session)` pair
with no records is `[]`. -/
theorem c8_absence_is_success (st : MemoryStore) (u sid : String)
    (q : List ℚ) (k : Int) :
    (userRecords st u = [] →
      (0 < k → query_similar st u q k = .ok []) ∧ list_sessions st u = []) ∧
    (sessionRecords st u sid = [] → get_session_history st u sid = []) := by
  constructor
  · intro h0
    constructor
    · intro hk
      have hk' : ¬ k ≤ 0 := not_le.mpr hk
      simp [query_similar, hk', h0]
    · simp [list_sessions, h0]
  · intro h0
    simp [get_session_history, h0]

/-- Witness for C8: the empty store answers `alice` with empty sequences
everywhere, and a missing session yields an empty history. -/
theorem c8_absence_is_success_witness :
    ((0 < (5 : Int) → query_similar ⟨2, []⟩ "alice" [1, 0] 5 = .ok []) ∧
      list_sessions ⟨2, []⟩ "alice" = []) ∧
    get_session_history ⟨2, []⟩ "alice" "nosuch" = [] :=
  ⟨(c8_absence_is_success ⟨2, []⟩ "alice" "nosuch" [1, 0] 5).1 (by decide),
   (c8_absence_is_success ⟨2, []⟩ "alice" "nosuch" [1, 0] 5).2 (by decide)⟩

lemma minTsRecord_cons (r0 r : ConversationRecord) (rs : List ConversationRecord) :
    minTsRecord r0 (r :: rs) =
      minTsRecord (if r.timestamp < r0.timestamp then r else r0) rs := rfl

lemma maxTsRecord_cons (r0 r : ConversationRecord) (rs : List ConversationRecord) :
    maxTsRecord r0 (r :: rs) =
      maxTsRecord (if r0.timestamp < r.timestamp then r else r0) rs := rfl

lemma minTsRecord_mem (r0 : ConversationRecord) (rs : List ConversationRecord) :
    minTsRecord r0 rs ∈ r0 :: rs := by
  induction rs generalizing r0 with
  | nil => simp [minTsRecord]
  | cons r rs ih =>
    rw [minTsRecord_cons]
    split
    · rcases List.mem_cons.mp (ih r) with h | h <;> simp [h]
    · rcases List.mem_cons.mp (ih r0) with h | h <;> simp [h]

lemma maxTsRecord_mem (r0 : ConversationRecord) (rs : List ConversationRecord) :
    maxTsRecord r0 rs ∈ r0 :: rs := by
  induction rs generalizing r0 with
  | nil => simp [maxTsRecord]
  | cons r rs ih =>
    rw [maxTsRecord_cons]
    split
    · rcases List.mem_cons.mp (ih r) with h | h <;> simp [h]
    · rcases List.mem_cons.mp (ih r0) with h | h <;> simp [h]

lemma minTsRecord_le (r0 : ConversationRecord) (rs : List ConversationRecord) :
    ∀ x ∈ r0 :: rs, (minTsRecord r0 rs).timestamp ≤ x.timestamp := by
  induction rs generalizing r0 with
  | nil =>
    intro x hx
    rw [List.mem_singleton.mp hx]
    exact Nat.le_refl _
  | cons r rs ih =>
    intro x hx
    rw [minTsRecord_cons]
    have hb : (if r.timestamp < r0.timestamp then r else r0).timestamp ≤ r0.timestamp ∧
        (if r.timestamp < r0.timestamp then r else r0).timestamp ≤ r.timestamp := by
      split
      · exact ⟨Nat.le_of_lt (by assumption), Nat.le_refl _⟩
      · exact ⟨Nat.le_refl _, Nat.le_of_not_lt (by assumption)⟩
    have hhead := ih (if r.timestamp < r0.timestamp then r else r0)
      (if r.timestamp < r0.timestamp then r else r0) (List.mem_cons_self _ _)
    rcases List.mem_cons.mp hx with h | h
    · exact Nat.le_trans hhead (h ▸ hb.1)
    · rcases List.mem_cons.mp h with h2 | h2
      · exact Nat.le_trans hhead (h2 ▸ hb.2)
      · exact ih (if r.timestamp < r0.timestamp then r else r0) x (List.mem_cons_of_mem _ h2)

lemma maxTsRecord_ge (r0 : ConversationRecord) (rs : List ConversationRecord) :
    ∀ x ∈ r0 :: rs, x.timestamp ≤ (maxTsRecord r0 rs).timestamp := by
  induction rs generalizing r0 with
  | nil =>
    intro x hx
    rw [List.mem_singleton.mp hx]
    exact Nat.le_refl _
  | cons r rs ih =>
    intro x hx
    rw [maxTsRecord_cons]
    have hb : r0.timestamp ≤ (if r0.timestamp < r.timestamp then r else r0).timestamp ∧
        r.timestamp ≤ (if r0.timestamp < r.timestamp then r else r0).timestamp := by
      split
      · exact ⟨Nat.le_of_lt (by assumption), Nat.le_refl _⟩
      · exact ⟨Nat.le_refl _, Nat.le_of_not_lt (by assumption)⟩
    have hhead := ih (if r0.timestamp < r.timestamp then r else r0)
      (if r0.timestamp < r.timestamp then r else r0) (List.mem_cons_self _ _)
    rcases List.mem_cons.mp hx with h | h
    · exact Nat.le_trans (h ▸ hb.1) hhead
    · rcases List.mem_cons.mp h with h2 | h2
      · exact Nat.le_trans (h2 ▸ hb.2) hhead
      · exact ih (if r0.timestamp < r.timestamp then r else r0) x (List.mem_cons_of_mem _ h2)

lemma summarize_session_id (sid : String) (rs : List ConversationRecord) :
    (summarize sid rs).session_id = sid := by
  cases rs <;> rfl

/-- C6: `list_sessions u` yields exactly one summary per session of `u`'s
records (its session ids are a permutation of the deduplicated session ids of
`u`'s records, without duplicates), each summary's `message_count` is the
number of `u`'s records sharing the session id, its first/last message and
timestamps come from an earliest/latest record of the session by timestamp,
and the summaries are ordered by `last_timestamp` descending. -/
theorem c6_list_sessions (st : MemoryStore) (u : String) :
    ((list_sessions st u).map (fun s => s.session_id)).Perm
        (((userRecords st u).map (fun r => r.session_id)).dedup) ∧
    ((list_sessions st u).map (fun s => s.session_id)).Nodup ∧
    List.Pairwise ltsGE (list_sessions st u) ∧
    ∀ s ∈ list_sessions st u,
      s.message_count =
        ((userRecords st u).filter (fun r => r.session_id == s.session_id)).length ∧
      (∃ rf ∈ (userRecords st u).filter (fun r => r.session_id == s.session_id),
        rf.user_query = s.first_message ∧ rf.timestamp = s.first_timestamp ∧
        ∀ r2 ∈ (userRecords st u).filter (fun r => r.session_id == s.session_id),
          rf.timestamp ≤ r2.timestamp) ∧
      (∃ rl ∈ (userRecords st u).filter (fun r => r.session_id == s.session_id),
        rl.user_query = s.last_message ∧ rl.timestamp = s.last_timestamp ∧
        ∀ r2 ∈ (userRecords st u).filter (fun r => r.session_id == s.session_id),
          r2.timestamp ≤ rl.timestamp) := by
  have hperm : (list_sessions st u).Perm
      ((((userRecords st u).map (fun r => r.session_id)).dedup).map
        (fun sid => summarize sid
          ((userRecords st u).filter (fun r => r.session_id == sid)))) :=
    List.perm_insertionSort _ _
  have hA : ((list_sessions st u).map (fun s => s.session_id)).Perm
      (((userRecords st u).map (fun r => r.session_id)).dedup) := by
    have h1 := hperm.map (fun s => s.session_id)
    simpa [List.map_map, Function.comp_def, summarize_session_id] using h1
  refine ⟨hA, hA.nodup_iff.mpr (List.nodup_dedup _),
    List.sorted_insertionSort ltsGE _, ?_⟩
  intro s hs
  obtain ⟨sid, hsid, hseq⟩ := List.mem_map.mp (hperm.mem_iff.mp hs)
  subst hseq
  rw [summarize_session_id]
  obtain ⟨r, hrmem, hrsid⟩ := List.mem_map.mp (List.mem_dedup.mp hsid)
  have hrin : r ∈ (userRecords st u).filter (fun x => x.session_id == sid) :=
    List.mem_filter.mpr ⟨hrmem, by simp [hrsid]⟩
  cases hRS : (userRecords st u).filter (fun x => x.session_id == sid) with
  | nil =>
    rw [hRS] at hrin
    exact absurd hrin (List.not_mem_nil r)
  | cons r0 rest =>
    refine ⟨by simp [summarize],
      ⟨minTsRecord r0 rest, minTsRecord_mem r0 rest, by simp [summarize],
        by simp [summarize], minTsRecord_le r0 rest⟩,
      ⟨maxTsRecord r0 rest, maxTsRecord_mem r0 rest, by simp [summarize],
        by simp [summarize], maxTsRecord_ge r0 rest⟩⟩

/-- Witness for C6: a concrete store where `alice` has sessions `s1` (two
records at timestamps 1 and 2) and `s2` (one record at timestamp 5); the
summary of `s1` satisfies every aggregate property. -/
theorem c6_list_sessions_witness :
    (⟨"s1", 2, "hello", "more", 1, 2⟩ : SessionSummary) ∈
      list_sessions
        ⟨2, [⟨"alice", "s1", "hello", "hi there", [1, 0], 1⟩,
             ⟨"alice", "s1", "more", "sure", [0, 1], 2⟩,
             ⟨"alice", "s2", "plan", "ok", [1, 0], 5⟩,
             ⟨"bob", "s9", "secret", "resp", [1, 0], 3⟩]⟩ "alice" ∧
    ((⟨"s1", 2, "hello", "more", 1, 2⟩ : SessionSummary).message_count =
        ((userRecords
          ⟨2, [⟨"alice", "s1", "hello", "hi there", [1, 0], 1⟩,
               ⟨"alice", "s1", "more", "sure", [0, 1], 2⟩,
               ⟨"alice", "s2", "plan", "ok", [1, 0], 5⟩,
               ⟨"bob", "s9", "secret", "resp", [1, 0], 3⟩]⟩ "alice").filter
          (fun r => r.session_id ==
            (⟨"s1", 2, "hello", "more", 1, 2⟩ : SessionSummary).session_id)).length ∧
      (∃ rf ∈ (userRecords
          ⟨2, [⟨"alice", "s1", "hello", "hi there", [1, 0], 1⟩,
               ⟨"alice", "s1", "more", "sure", [0, 1], 2⟩,
               ⟨"alice", "s2", "plan", "ok", [1, 0], 5⟩,
               ⟨"bob", "s9", "secret", "resp", [1, 0], 3⟩]⟩ "alice").filter
          (fun r => r.session_id ==
            (⟨"s1", 2, "hello", "more", 1, 2⟩ : SessionSummary).session_id),
        rf.user_query = (⟨"s1", 2, "hello", "more", 1, 2⟩ : SessionSummary).first_message ∧
        rf.timestamp = (⟨"s1", 2, "hello", "more", 1, 2⟩ : SessionSummary).first_timestamp ∧
        ∀ r2 ∈ (userRecords
          ⟨2, [⟨"alice", "s1", "hello", "hi there", [1, 0], 1⟩,
               ⟨"alice", "s1", "more", "sure", [0, 1], 2⟩,
               ⟨"alice", "s2", "plan", "ok", [1, 0], 5⟩,
               ⟨"bob", "s9", "secret", "resp", [1, 0], 3⟩]⟩ "alice").filter
          (fun r => r.session_id ==
            (⟨"s1", 2, "hello", "more", 1, 2⟩ : SessionSummary).session_id),
          rf.timestamp ≤ r2.timestamp) ∧
      (∃ rl ∈ (userRecords
          ⟨2, [⟨"alice", "s1", "hello", "hi there", [1, 0], 1⟩,
               ⟨"alice", "s1", "more", "sure", [0, 1], 2⟩,
               ⟨"alice", "s2", "plan", "ok", [1, 0], 5⟩,
               ⟨"bob", "s9", "secret", "resp", [1, 0], 3⟩]⟩ "alice").filter
          (fun r => r.session_id ==
            (⟨"s1", 2, "hello", "more", 1, 2⟩ : SessionSummary).session_id),
        rl.user_query = (⟨"s1", 2, "hello", "more", 1, 2⟩ : SessionSummary).last_message ∧
        rl.timestamp = (⟨"s1", 2, "hello", "more", 1, 2⟩ : SessionSummary).last_timestamp ∧
        ∀ r2 ∈ (userRecords
          ⟨2, [⟨"alice", "s1", "hello", "hi there", [1, 0], 1⟩,
               ⟨"alice", "s1", "more", "sure", [0, 1], 2⟩,
               ⟨"alice", "s2", "plan", "ok", [1, 0], 5⟩,
               ⟨"bob", "s9", "secret", "resp", [1, 0], 3⟩]⟩ "alice").filter
          (fun r => r.session_id ==
            (⟨"s1", 2, "hello", "more", 1, 2⟩ : SessionSummary).session_id),
          r2.timestamp ≤ rl.timestamp)) :=
  ⟨by decide,
   (c6_list_sessions
      ⟨2, [⟨"alice", "s1", "hello", "hi there", [1, 0], 1⟩,
           ⟨"alice", "s1", "more", "sure", [0, 1], 2⟩,
           ⟨"alice", "s2", "plan", "ok", [1, 0], 5⟩,
           ⟨"bob", "s9", "secret", "resp", [1, 0], 3⟩]⟩ "alice").2.2.2
      ⟨"s1", 2, "hello", "more", 1, 2⟩ (by decide)⟩

lemma sendTurn_some (st : ClientState) (s inp mint resp : String)
    (hsid : st.currentSessionId = some s)
    (hload : st.isLoading = false) (hin : jsTrim inp ≠ "") :
    sendTurn { st with input := inp } mint resp =
      ({ messages := st.messages ++ [⟨inp, .user⟩, ⟨resp, .assistant⟩],
         input := "", isLoading := false, currentSessionId := some s },
        some s) := by
  simp [sendTurn, beginSend, completeOk, serverSid, hsid, hload, hin]

lemma sendTurn_none (st : ClientState) (inp mint resp : String)
    (hsid : st.currentSessionId = none)
    (hload : st.isLoading = false) (hin : jsTrim inp ≠ "") (hm : mint ≠ "") :
    sendTurn { st with input := inp } mint resp =
      ({ messages := st.messages ++ [⟨inp, .user⟩, ⟨resp, .assistant⟩],
         input := "", isLoading := false, currentSessionId := some mint },
        some mint) := by
  simp [sendTurn, beginSend, completeOk, serverSid, hsid, hload, hin, hm]

lemma runTurns_active (turns : List (String × String × String)) :
    ∀ (st : ClientState) (s : String),
      st.currentSessionId = some s → st.isLoading = false →
      (∀ tr ∈ turns, jsTrim tr.1 ≠ "") →
      (runTurns st turns).2 = List.replicate turns.length s ∧
      (runTurns st turns).1.currentSessionId = some s ∧
      (runTurns st turns).1.isLoading = false := by
  induction turns with
  | nil =>
    intro st s h1 h2 _
    exact ⟨rfl, h1, h2⟩
  | cons tr rest ih =>
    obtain ⟨inp, mint, resp⟩ := tr
    intro st s h1 h2 hin
    have hst := sendTurn_some st s inp mint resp h1 h2
      (hin (inp, mint, resp) (List.mem_cons_self _ _))
    have ih2 := ih
      { messages := st.messages ++ [⟨inp, .user⟩, ⟨resp, .assistant⟩],
        input := "", isLoading := false, currentSessionId := some s } s rfl rfl
      (fun tr2 htr2 => hin tr2 (List.mem_cons_of_mem _ htr2))
    rw [runTurns, hst]
    exact ⟨by simp [ih2.1, List.replicate_succ], ih2.2.1, ih2.2.2⟩

/-- C3: turns submitted with no "new conversation" reset in between are all
written under one session id (the one established on the first turn is kept
for the whole visit); `startNewChat` clears the current session id, and a
turn submitted after it is written under exactly the freshly minted backend
token, hence under a session id never seen before for that user. -/
theorem c3_session_continuity (st : ClientState)
    (turns : List (String × String × String))
    (hload : st.isLoading = false)
    (hin : ∀ tr ∈ turns, jsTrim tr.1 ≠ "")
    (hmint : ∀ tr ∈ turns, tr.2.1 ≠ "") :
    (∃ s, (runTurns st turns).2 = List.replicate turns.length s) ∧
    (startNewChat st).currentSessionId = none ∧
    (∀ (seen : List String) (inp mint resp : String),
      jsTrim inp ≠ "" → mint ≠ "" → mint ∉ seen →
      (runTurns (startNewChat st) [(inp, mint, resp)]).2 = [mint] ∧
      ∀ sid ∈ (runTurns (startNewChat st) [(inp, mint, resp)]).2, sid ∉ seen) := by
  refine ⟨?_, rfl, ?_⟩
  · match turns, hin, hmint with
    | [], _, _ => exact ⟨"", rfl⟩
    | (inp, mint, resp) :: rest, hin, hmint =>
      cases hc : st.currentSessionId with
      | some s =>
        have hst := sendTurn_some st s inp mint resp hc hload
          (hin (inp, mint, resp) (List.mem_cons_self _ _))
        have hrest := runTurns_active rest
          { messages := st.messages ++ [⟨inp, .user⟩, ⟨resp, .assistant⟩],
            input := "", isLoading := false, currentSessionId := some s } s rfl rfl
          (fun tr2 htr2 => hin tr2 (List.mem_cons_of_mem _ htr2))
        exact ⟨s, by rw [runTurns, hst]; simp [hrest.1, List.replicate_succ]⟩
      | none =>
        have hst := sendTurn_none st inp mint resp hc hload
          (hin (inp, mint, resp) (List.mem_cons_self _ _))
          (hmint (inp, mint, resp) (List.mem_cons_self _ _))
        have hrest := runTurns_active rest
          { messages := st.messages ++ [⟨inp, .user⟩, ⟨resp, .assistant⟩],
            input := "", isLoading := false, currentSessionId := some mint } mint rfl rfl
          (fun tr2 htr2 => hin tr2 (List.mem_cons_of_mem _ htr2))
        exact ⟨mint, by rw [runTurns, hst]; simp [hrest.1, List.replicate_succ]⟩
  · intro seen inp mint resp h1 h2 h3
    have hst := sendTurn_none (startNewChat st) inp mint resp rfl hload h1 h2
    constructor
    · rw [runTurns, hst]
      simp [runTurns]
    · intro sid hsid
      rw [runTurns, hst] at hsid
      simp [runTurns] at hsid
      rw [hsid]
      exact h3

/-- Witness for C3: from a fresh client, two turns share the first minted
session id, and after `startNewChat` a turn is written under the fresh
token `m2`, which is not among the previously seen ids. -/
theorem c3_session_continuity_witness :
    (∃ s, (runTurns initialClientState
        [("hello there", "m1", "r1"), ("and more", "zz", "r2")]).2 =
      List.replicate
        ([("hello there", "m1", "r1"), ("and more", "zz", "r2")] :
          List (String × String × String)).length s) ∧
    (startNewChat initialClientState).currentSessionId = none ∧
    (∀ (seen : List String) (inp mint resp : String),
      jsTrim inp ≠ "" → mint ≠ "" → mint ∉ seen →
      (runTurns (startNewChat initialClientState) [(inp, mint, resp)]).2 = [mint] ∧
      ∀ sid ∈ (runTurns (startNewChat initialClientState) [(inp, mint, resp)]).2,
        sid ∉ seen) :=
  c3_session_continuity initialClientState
    [("hello there", "m1", "r1"), ("and more", "zz", "r2")]
    (by decide) (by decide) (by decide)

/-- C4: loading a past session moves the client straight to
`ActiveSession(sessionId)` with the parsed history as the conversation, and
every turn submitted afterwards (no reset in between) is written under that
same session id, appending to the old conversation instead of minting a new
session. -/
theorem c4_load_session_continues (st : ClientState) (sessionId history : String)
    (turns : List (String × String × String))
    (hload : st.isLoading = false)
    (hin : ∀ tr ∈ turns, jsTrim tr.1 ≠ "") :
    (loadSessionHistory st sessionId history).currentSessionId = some sessionId ∧
    (loadSessionHistory st sessionId history).messages = parseHistory history ∧
    (runTurns (loadSessionHistory st sessionId history) turns).2 =
      List.replicate turns.length sessionId :=
  ⟨rfl, rfl,
    (runTurns_active turns (loadSessionHistory st sessionId history) sessionId
      rfl hload hin).1⟩

/-- Witness for C4: loading session `s7` and then submitting two turns writes
both under `s7`, whatever the backend would have minted. -/
theorem c4_load_session_continues_witness :
    (loadSessionHistory initialClientState "s7"
        "[USER] old q\n[ASSISTANT] old a").currentSessionId = some "s7" ∧
    (loadSessionHistory initialClientState "s7"
        "[USER] old q\n[ASSISTANT] old a").messages =
      parseHistory "[USER] old q\n[ASSISTANT] old a" ∧
    (runTurns (loadSessionHistory initialClientState "s7"
        "[USER] old q\n[ASSISTANT] old a")
      [("follow up", "m9", "r1"), ("again", "m10", "r2")]).2 =
      List.replicate
        ([("follow up", "m9", "r1"), ("again", "m10", "r2")] :
          List (String × String × String)).length "s7" :=
  c4_load_session_continues initialClientState "s7"
    "[USER] old q\n[ASSISTANT] old a"
    [("follow up", "m9", "r1"), ("again", "m10", "r2")]
    (by decide) (by decide)

lemma stepClient_emit (st : ClientState) (e : NetEvent) (req : ChatRequest)
    (h : (stepClient st e).2 = some req) : jsTrim req.query ≠ "" := by
  cases e with
  | type s => simp [stepClient] at h
  | complete a b => simp [stepClient] at h
  | fail a => simp [stepClient] at h
  | send mint resp =>
    simp only [stepClient] at h
    unfold beginSend at h
    split at h
    · simp at h
    · rename_i hcond
      simp only at h
      obtain ⟨h1, _⟩ := not_or.mp hcond
      rw [← Option.some_inj.mp h]
      exact h1

lemma flStep_inv (st : ClientState) (fl : Nat) (e : NetEvent)
    (h : fl = if st.isLoading then 1 else 0) :
    flStep fl e (stepClient st e).2 =
      if (stepClient st e).1.isLoading then 1 else 0 := by
  cases e with
  | type s => simpa [stepClient, flStep] using h
  | complete a b =>
    rw [h]
    cases hb : st.isLoading <;> simp [stepClient, flStep, completeOk, hb]
  | fail a =>
    rw [h]
    cases hb : st.isLoading <;> simp [stepClient, flStep, completeFail, hb]
  | send mint resp =>
    simp only [stepClient]
    unfold beginSend
    split
    · rename_i hcond
      simpa [flStep] using h
    · rename_i hcond
      obtain ⟨_, h2⟩ := not_or.mp hcond
      have hb : st.isLoading = false := by
        cases hb2 : st.isLoading
        · rfl
        · exact absurd hb2 h2
      rw [h, hb]
      simp [flStep]

lemma runClient_fl (es : List NetEvent) :
    ∀ (st : ClientState) (fl : Nat), fl = (if st.isLoading then 1 else 0) →
      (runClient st fl es).2.1 =
        if (runClient st fl es).1.isLoading then 1 else 0 := by
  induction es with
  | nil =>
    intro st fl h
    simpa [runClient] using h
  | cons e es ih =>
    intro st fl h
    simp only [runClient]
    exact ih _ _ (flStep_inv st fl e h)

lemma runClient_reqs (es : List NetEvent) :
    ∀ (st : ClientState) (fl : Nat),
      ∀ req ∈ (runClient st fl es).2.2, jsTrim req.query ≠ "" := by
  induction es with
  | nil =>
    intro st fl req hreq
    simp [runClient] at hreq
  | cons e es ih =>
    intro st fl req hreq
    simp only [runClient] at hreq
    rcases List.mem_append.mp hreq with hl | hr
    · cases hopt : (stepClient st e).2 with
      | none => rw [hopt] at hl; simp [Option.toList] at hl
      | some req2 =>
        rw [hopt] at hl
        simp [Option.toList] at hl
        rw [hl]
        exact stepClient_emit st e req2 hopt
    · exact ih _ _ req hr

lemma exists_nonws_of_jsTrim_ne (s : String) (h : jsTrim s ≠ "") :
    ∃ c ∈ s.data, c.isWhitespace = false := by
  by_contra hc
  push_neg at hc
  apply h
  have hall : ∀ c ∈ s.data, c.isWhitespace = true := by
    intro c hcmem
    cases hb : c.isWhitespace
    · exact absurd hb (hc c hcmem)
    · rfl
  have h1 : s.data.dropWhile Char.isWhitespace = [] :=
    List.dropWhile_eq_nil_iff.mpr hall
  unfold jsTrim charTrim
  rw [h1]
  rfl

/-- C10: however the UI events interleave, every `/chat` request the client
issues carries a query with at least one non-whitespace character, and at
every moment of the event sequence at most one request is in flight (a new
`send` while one is in flight is a no-op, by the `isLoading` guard of
`handleSendMessage`). -/
theorem c10_chat_request_guard (es : List NetEvent) (st : ClientState)
    (fl : Nat) (h : fl = if st.isLoading then 1 else 0) :
    (∀ req ∈ (runClient st fl es).2.2,
      ∃ c ∈ req.query.data, c.isWhitespace = false) ∧
    (∀ es1 es2, es = es1 ++ es2 → (runClient st fl es1).2.1 ≤ 1) := by
  constructor
  · intro req hreq
    exact exists_nonws_of_jsTrim_ne _ (runClient_reqs es st fl req hreq)
  · intro es1 es2 _
    rw [runClient_fl es1 st fl h]
    split <;> simp

/-- Witness for C10: a concrete event trace with a whitespace-only input, a
double submit, and a resolution; every emitted request has substance and the
in-flight count never exceeds one. -/
theorem c10_chat_request_guard_witness :
    (∀ req ∈ (runClient initialClientState 0
        [.type " hi there", .send "m1" "r1", .send "m1" "r1",
          .complete "m1" "r1", .type "   ", .send "m2" "r2"]).2.2,
      ∃ c ∈ req.query.data, c.isWhitespace = false) ∧
    (∀ es1 es2,
      ([.type " hi there", .send "m1" "r1", .send "m1" "r1",
        .complete "m1" "r1", .type "   ", .send "m2" "r2"] : List NetEvent) =
          es1 ++ es2 →
      (runClient initialClientState 0 es1).2.1 ≤ 1) :=
  c10_chat_request_guard
    [.type " hi there", .send "m1" "r1", .send "m1" "r1",
      .complete "m1" "r1", .type "   ", .send "m2" "r2"]
    initialClientState 0 (by decide)

lemma isPrefixOf_append_self (pat s : List Char) :
    pat.isPrefixOf (pat ++ s) = true :=
  List.isPrefixOf_iff_prefix.mpr ⟨s, rfl⟩

lemma replaceFirst_pre (pat s : List Char) :
    replaceFirst pat (pat ++ s) = s := by
  cases pat with
  | nil =>
    cases s with
    | nil => rfl
    | cons c rest => simp [replaceFirst, List.isPrefixOf]
  | cons p ps =>
    show replaceFirst (p :: ps) ((p :: ps) ++ s) = s
    rw [List.cons_append, replaceFirst, ← List.cons_append,
      isPrefixOf_append_self (p :: ps) s]
    simp [List.drop_left]

lemma splitLines_no_newline (xs : List Char) (h : ∀ c ∈ xs, c ≠ '\n') :
    splitLines xs = [xs] := by
  induction xs with
  | nil => rfl
  | cons c rest ih =>
    have hc : c ≠ '\n' := h c (List.mem_cons_self _ _)
    rw [splitLines, if_neg hc, ih (fun c2 hc2 => h c2 (List.mem_cons_of_mem _ hc2))]

lemma splitLines_append (xs ys : List Char) (h : ∀ c ∈ xs, c ≠ '\n') :
    splitLines (xs ++ '\n' :: ys) = xs :: splitLines ys := by
  induction xs with
  | nil => simp [splitLines]
  | cons c rest ih =>
    have hc : c ≠ '\n' := h c (List.mem_cons_self _ _)
    rw [List.cons_append, splitLines, if_neg hc,
      ih (fun c2 hc2 => h c2 (List.mem_cons_of_mem _ hc2))]

lemma charTrim_space (l : List Char) : charTrim (' ' :: l) = charTrim l := by
  simp [charTrim, List.dropWhile_cons]

lemma parseLines_user (s : List Char) (rest : List (List Char)) :
    parseLines ((labelUser ++ s) :: rest) =
      ⟨String.mk (charTrim s), .user⟩ :: parseLines rest := by
  rw [parseLines, if_pos (isPrefixOf_append_self labelUser s),
    replaceFirst_pre]

lemma user_not_prefix_of_assistant (s : List Char) :
    labelUser.isPrefixOf (labelAssistant ++ s) = false := rfl

lemma parseLines_assistant (s : List Char) (rest : List (List Char)) :
    parseLines ((labelAssistant ++ s) :: rest) =
      ⟨String.mk (charTrim s), .assistant⟩ :: parseLines rest := by
  rw [parseLines, if_neg (by rw [user_not_prefix_of_assistant]; simp),
    if_pos (isPrefixOf_append_self labelAssistant s), replaceFirst_pre]

lemma parseLines_skip (l : List Char) (rest : List (List Char))
    (h1 : labelUser.isPrefixOf l = false)
    (h2 : labelAssistant.isPrefixOf l = false) :
    parseLines (l :: rest) = parseLines rest := by
  rw [parseLines, if_neg (by rw [h1]; simp), if_neg (by rw [h2]; simp)]

lemma parseLines_length (lines : List (List Char)) :
    (parseLines lines).length =
      (lines.filter
        (fun l => labelUser.isPrefixOf l || labelAssistant.isPrefixOf l)).length := by
  induction lines with
  | nil => rfl
  | cons l rest ih =>
    cases h1 : labelUser.isPrefixOf l <;> cases h2 : labelAssistant.isPrefixOf l <;>
      simp [parseLines, List.filter, h1, h2, ih]

lemma renderRecord_data (r : ConversationRecord) :
    (renderRecord r).data =
      (labelUser ++ ' ' :: r.user_query.data) ++
        '\n' :: (labelAssistant ++ ' ' :: r.assistant_response.data) := by
  show ("[USER] " ++ r.user_query ++ "\n[ASSISTANT] " ++ r.assistant_response).data = _
  rw [String.data_append, String.data_append, String.data_append]
  simp [labelUser, labelAssistant]

lemma no_nl_line (lab txt : List Char) (hlab : ∀ c ∈ lab, c ≠ '\n')
    (htxt : ∀ c ∈ txt, c ≠ '\n') : ∀ c ∈ lab ++ ' ' :: txt, c ≠ '\n' := by
  intro c hc
  rcases List.mem_append.mp hc with h | h
  · exact hlab c h
  · rcases List.mem_cons.mp h with h2 | h2
    · rw [h2]; decide
    · exact htxt c h2

lemma labelUser_no_nl : ∀ c ∈ labelUser, c ≠ '\n' := by decide

lemma labelAssistant_no_nl : ∀ c ∈ labelAssistant, c ≠ '\n' := by decide

/-- C5: writing turns `(q1,r1)` then `(q2,r2)` (timestamps `t1 < t2`) into a
session with no prior records and reading it back with `get_session_history`
yields exactly those two records in chronological order; the external
rendering of that history is the four alternating `[USER]`/`[ASSISTANT]`
prefixed lines, and the frontend replay parser recovers precisely the four
original turn texts from it. -/
theorem c5_history_roundtrip (st : MemoryStore) (u S q1 r1 q2 r2 : String)
    (e1 e2 : List ℚ) (t1 t2 : Nat)
    (hS : sessionRecords st u S = [])
    (hd1 : e1.length = st.dim) (hd2 : e2.length = st.dim)
    (hu : u ≠ "") (hsid : S ≠ "")
    (hq1 : q1 ≠ "") (hr1 : r1 ≠ "") (hq2 : q2 ≠ "") (hr2 : r2 ≠ "")
    (ht : t1 < t2)
    (hnq1 : ∀ c ∈ q1.data, c ≠ '\n') (hnr1 : ∀ c ∈ r1.data, c ≠ '\n')
    (hnq2 : ∀ c ∈ q2.data, c ≠ '\n') (hnr2 : ∀ c ∈ r2.data, c ≠ '\n')
    (htq1 : charTrim q1.data = q1.data) (htr1 : charTrim r1.data = r1.data)
    (htq2 : charTrim q2.data = q2.data) (htr2 : charTrim r2.data = r2.data) :
    ∃ st1 st2,
      write st u S q1 r1 e1 t1 = .ok st1 ∧
      write st1 u S q2 r2 e2 t2 = .ok st2 ∧
      get_session_history st2 u S =
        [⟨u, S, q1, r1, e1, t1⟩, ⟨u, S, q2, r2, e2, t2⟩] ∧
      splitLines (renderHistory (get_session_history st2 u S)).data =
        [labelUser ++ ' ' :: q1.data, labelAssistant ++ ' ' :: r1.data,
          labelUser ++ ' ' :: q2.data, labelAssistant ++ ' ' :: r2.data] ∧
      parseHistory (renderHistory (get_session_history st2 u S)) =
        [⟨q1, .user⟩, ⟨r1, .assistant⟩, ⟨q2, .user⟩, ⟨r2, .assistant⟩] := by
  have hw1 : write st u S q1 r1 e1 t1 =
      .ok { st with records := st.records ++ [⟨u, S, q1, r1, e1, t1⟩] } := by
    unfold write
    rw [if_neg (by simp [hd1, hu, hsid, hq1, hr1])]
  have hw2 : write { st with records := st.records ++ [⟨u, S, q1, r1, e1, t1⟩] }
      u S q2 r2 e2 t2 =
      .ok { st with records :=
        (st.records ++ [⟨u, S, q1, r1, e1, t1⟩]) ++ [⟨u, S, q2, r2, e2, t2⟩] } := by
    unfold write
    rw [if_neg (by simp [hd2, hu, hsid, hq2, hr2])]
  have hS2 : st.records.filter
      (fun r => r.user_id == u && r.session_id == S) = [] := hS
  have hgsh : get_session_history
      { st with records :=
        (st.records ++ [⟨u, S, q1, r1, e1, t1⟩]) ++ [⟨u, S, q2, r2, e2, t2⟩] } u S =
      [⟨u, S, q1, r1, e1, t1⟩, ⟨u, S, q2, r2, e2, t2⟩] := by
    unfold get_session_history sessionRecords
    rw [List.filter_append, List.filter_append, hS2]
    simp only [List.filter_cons, List.filter_nil]
    simp only [beq_self_eq_true, Bool.and_self, if_pos]
    apply List.Sorted.insertionSort_eq
    simp [List.sorted_cons, tsLE, Nat.le_of_lt ht]
  refine ⟨_, _, hw1, hw2, hgsh, ?_, ?_⟩
  · rw [hgsh]
    show splitLines (renderRecord _ ++ "\n" ++ renderRecord _).data = _
    rw [String.data_append, String.data_append, renderRecord_data,
      renderRecord_data]
    show splitLines
      ((((labelUser ++ ' ' :: q1.data) ++
          '\n' :: (labelAssistant ++ ' ' :: r1.data)) ++ ['\n']) ++
        ((labelUser ++ ' ' :: q2.data) ++
          '\n' :: (labelAssistant ++ ' ' :: r2.data))) = _
    rw [List.append_assoc, List.append_assoc, List.cons_append,
      List.cons_append, List.nil_append]
    rw [splitLines_append _ _ (no_nl_line _ _ labelUser_no_nl hnq1),
      splitLines_append _ _ (no_nl_line _ _ labelAssistant_no_nl hnr1),
      splitLines_append _ _ (no_nl_line _ _ labelUser_no_nl hnq2),
      splitLines_no_newline _ (no_nl_line _ _ labelAssistant_no_nl hnr2)]
  · rw [hgsh]
    unfold parseHistory
    show parseLines (splitLines (renderHistory
      [⟨u, S, q1, r1, e1, t1⟩, ⟨u, S, q2, r2, e2, t2⟩]).data) = _
    rw [show splitLines (renderHistory
        [⟨u, S, q1, r1, e1, t1⟩, ⟨u, S, q2, r2, e2, t2⟩]).data =
        [labelUser ++ ' ' :: q1.data, labelAssistant ++ ' ' :: r1.data,
          labelUser ++ ' ' :: q2.data, labelAssistant ++ ' ' :: r2.data] from ?_]
    · rw [parseLines_user, parseLines_assistant, parseLines_user,
        parseLines_assistant]
      rw [charTrim_space, charTrim_space, charTrim_space, charTrim_space,
        htq1, htr1, htq2, htr2]
      rfl
    · show splitLines (renderRecord _ ++ "\n" ++ renderRecord _).data = _
      rw [String.data_append, String.data_append, renderRecord_data,
        renderRecord_data]
      show splitLines
        ((((labelUser ++ ' ' :: q1.data) ++
            '\n' :: (labelAssistant ++ ' ' :: r1.data)) ++ ['\n']) ++
          ((labelUser ++ ' ' :: q2.data) ++
            '\n' :: (labelAssistant ++ ' ' :: r2.data))) = _
      rw [List.append_assoc, List.append_assoc, List.cons_append,
        List.cons_append, List.nil_append]
      rw [splitLines_append _ _ (no_nl_line _ _ labelUser_no_nl hnq1),
        splitLines_append _ _ (no_nl_line _ _ labelAssistant_no_nl hnr1),
        splitLines_append _ _ (no_nl_line _ _ labelUser_no_nl hnq2),
        splitLines_no_newline _ (no_nl_line _ _ labelAssistant_no_nl hnr2)]

/-- Witness for C5 on a fresh store of dimensionality 2: two turns written to
session `s1` replay exactly. -/
theorem c5_history_roundtrip_witness :
    ∃ st1 st2,
      write ⟨2, []⟩ "alice" "s1" "hello" "hi there" [1, 0] 1 = .ok st1 ∧
      write st1 "alice" "s1" "more" "sure" [0, 1] 2 = .ok st2 ∧
      get_session_history st2 "alice" "s1" =
        [⟨"alice", "s1", "hello", "hi there", [1, 0], 1⟩,
          ⟨"alice", "s1", "more", "sure", [0, 1], 2⟩] ∧
      splitLines (renderHistory (get_session_history st2 "alice" "s1")).data =
        [labelUser ++ ' ' :: "hello".data, labelAssistant ++ ' ' :: "hi there".data,
          labelUser ++ ' ' :: "more".data, labelAssistant ++ ' ' :: "sure".data] ∧
      parseHistory (renderHistory (get_session_history st2 "alice" "s1")) =
        [⟨"hello", .user⟩, ⟨"hi there", .assistant⟩,
          ⟨"more", .user⟩, ⟨"sure", .assistant⟩] :=
  c5_history_roundtrip ⟨2, []⟩ "alice" "s1" "hello" "hi there" "more" "sure"
    [1, 0] [0, 1] 1 2 (by decide) (by decide) (by decide) (by decide)
    (by decide) (by decide) (by decide) (by decide) (by decide) (by decide)
    (by decide) (by decide) (by decide) (by decide) (by decide) (by decide)
    (by decide) (by decide)

/-- A stored turn whose query contains a newline, rendered and replayed in
the parser theorems below. -/
def c9Record : ConversationRecord := ⟨"alice", "s1", "hello\nworld", "resp", [1], 1⟩

/-- C9, counterexample to the final consequence as stated: at the claim's own
scenario — a stored turn whose query contains a newline, rendered in the
labeled-line format — the parser replays 2 messages for 1 stored turn (the
unlabeled continuation line `world` is dropped), so the number of replayed
messages is not smaller than the number of stored turns. -/
theorem c9_history_replay_counterexample :
    parseHistory (renderHistory [c9Record]) =
      [⟨"hello", .user⟩, ⟨"resp", .assistant⟩] ∧
    ¬ ((parseHistory (renderHistory [c9Record])).length <
        ([c9Record] : List ConversationRecord).length) := by
  decide

/-- C9 (amended): the client replay parser emits exactly one message per line
that begins with `[USER]` (sender user) or `[ASSISTANT]` (sender assistant),
stripping the first occurrence of the label and trimming, and silently
discards every other line; a stored query containing a newline is replayed
with only its labeled first line, and the number of replayed messages can be
smaller than the number of lines of the rendered history (though never
smaller than the number of stored turns). -/
theorem c9_history_replay :
    (∀ h : String, (parseHistory h).length =
      ((splitLines h.data).filter
        (fun l => labelUser.isPrefixOf l || labelAssistant.isPrefixOf l)).length) ∧
    (∀ (s : List Char) (rest : List (List Char)),
      parseLines ((labelUser ++ s) :: rest) =
        ⟨String.mk (charTrim s), .user⟩ :: parseLines rest) ∧
    (∀ (s : List Char) (rest : List (List Char)),
      parseLines ((labelAssistant ++ s) :: rest) =
        ⟨String.mk (charTrim s), .assistant⟩ :: parseLines rest) ∧
    (∀ (l : List Char) (rest : List (List Char)),
      labelUser.isPrefixOf l = false → labelAssistant.isPrefixOf l = false →
      parseLines (l :: rest) = parseLines rest) ∧
    (∀ pat s : List Char, replaceFirst pat (pat ++ s) = s) ∧
    (parseHistory (renderHistory [c9Record]) =
        [⟨"hello", .user⟩, ⟨"resp", .assistant⟩] ∧
      (parseHistory (renderHistory [c9Record])).length <
        (splitLines (renderHistory [c9Record]).data).length) :=
  ⟨fun h => parseLines_length (splitLines h.data),
    parseLines_user, parseLines_assistant, parseLines_skip,
    replaceFirst_pre, by decide⟩

/-- Witness for C9 (amended), discharging the unlabeled-line hypotheses at a
concrete line: a line starting with neither label is silently dropped. -/
theorem c9_history_replay_witness :
    parseLines ("plain continuation line".data :: []) = parseLines [] :=
  c9_history_replay.2.2.2.1 "plain continuation line".data []
    (by decide) (by decide)
